import Mathlib

/-
Verification development for the ProjectReecall repository.

The embedding covers, translated from the sources:
  - src/semantic.py: the label cache, label_conversation_summary and the
    batch_label command (the classification and translation collaborators
    are abstracted as an oracle from conversation text to an outcome);
  - src/preprocess.py: load_checkpoint, save_checkpoint and the batched,
    checkpointed preprocess loop (modelled as the trace of attempt and
    commit events it performs);
  - src/build_ref.py: the per-record frequency counting and the
    first-two-seen example collection of regroup_ref_llm;
  - durable writes (save_cache, save_checkpoint) as explicit file-system
    operation lists, to reason about atomicity.

Two components that the specification describes are not implemented by any
code under src (build_ref.py delegates regrouping and ranking to an external
LLM call): the category canonicalizer and the taxonomy renderer.  These are
modelled from the spec, and each such definition says so in its doc comment.

Python string primitives (str.strip, str.lower, int parsing) are embedded as
structural functions over the character data of a string, so that every
definition evaluates inside the kernel.
-/

namespace Reecall

/-- Embedding of Python str.strip for whitespace: drop whitespace characters
from both ends of the string. -/
def pyStrip (s : String) : String :=
  ⟨((s.data.dropWhile Char.isWhitespace).reverse.dropWhile Char.isWhitespace).reverse⟩

/-- Embedding of Python str.lower (ASCII case folding suffices here). -/
def pyLower (s : String) : String := ⟨s.data.map Char.toLower⟩

/-- Helper for parsing a decimal natural number, digit by digit. -/
def parseNatAux : List Char → Nat → Option Nat
  | [], acc => some acc
  | c :: cs, acc => if c.isDigit then parseNatAux cs (acc * 10 + (c.toNat - 48)) else none

/-- Embedding of Python int(...) on the canonical decimal numerals the
checkpoint writer itself produces: all-digit strings parse, everything else
fails.  The checkpoint file is only ever written by save_checkpoint with a
natural number, so this is the relevant domain. -/
def parseNat? (s : String) : Option Nat :=
  match s.data with
  | [] => none
  | l => parseNatAux l 0

/-- Decimal digits of a natural number, fuel-structured so it reduces. -/
def natDigitsAux : Nat → Nat → List Char
  | 0, _ => []
  | _ + 1, 0 => []
  | fuel + 1, n => natDigitsAux fuel (n / 10) ++ [Char.ofNat (48 + n % 10)]

/-- Decimal rendering of a natural number (embedding of Python str(int)). -/
def natToStr (n : Nat) : String :=
  if n = 0 then ("0") else ⟨natDigitsAux (n + 1) n⟩

/-- Rendering of a rational number for the cache file model. -/
def ratToStr (q : ℚ) : String :=
  (if q.num < 0 then ("-") else "") ++ natToStr q.num.natAbs ++
    (if q.den = 1 then "" else ("/") ++ natToStr q.den)

/- ----------------------------------------------------------------- -/
/- Model of src/semantic.py                                          -/
/- ----------------------------------------------------------------- -/

/-- A label as produced by the classification step of semantic.py:
theme, category and confidence. -/
structure Label where
  theme : String
  category : String
  confidence : ℚ
deriving DecidableEq

/-- The unknown label substituted for empty conversations and for
recoverable collaborator errors (semantic.py lines 107 and 155). -/
def unknownLabel : Label := ⟨("unknown"), ("unknown"), 0⟩

/-- A conversation as consumed by label_conversation_summary: its id and the
text field of each message (a missing text field is the empty string, which
is exactly what Python msg.get treats as falsy). -/
structure Conv where
  conversation_id : String
  messages : List String
deriving DecidableEq

/-- Outcome of one call to the external classification collaborator for a
given text: a successful label (theme and category already translated, as
the translation collaborator is part of the same boundary), a recoverable
error, or a quota/rate-limit signal (openai.RateLimitError). -/
inductive Outcome
  | ok (l : Label)
  | err
  | rateLimit
deriving DecidableEq

/-- In-memory cache plus the durable cache file content (parsed form).
save_cache rewrites the file with the full in-memory cache. -/
structure LState where
  cache : List (String × Label)
  file : List (String × Label)
deriving DecidableEq

/-- Lookup in an association list representing the Python dict label_cache;
newest binding wins, matching dict assignment. -/
def cacheLookup (k : String) : List (String × Label) → Option Label
  | [] => none
  | kv :: rest => if kv.1 = k then some kv.2 else cacheLookup k rest

/-- Result of one label_conversation_summary call: a returned record
(conversation id plus label), or the fatal quota path, which in the source
raises typer.Exit(code=2). -/
inductive LabelResult
  | out (cid : String) (l : Label)
  | fatal
deriving DecidableEq

/-- The full text of a conversation, as built by semantic.py lines 102-103:
join the truthy message texts with newlines, then strip. -/
def fullText (c : Conv) : String :=
  pyStrip (String.intercalate ("\n") (c.messages.filter (fun t => t != "")))

/-- Embedding of label_conversation_summary (semantic.py lines 100-160).
Returns the result, the updated cache state and the list of texts sent to
the classification collaborator during the call.  On the rate-limit path
the source raises before reaching the cache store, so the state is
unchanged there; on the ok and err paths the label is stored and the full
cache flushed to the durable file (save_cache). -/
def label_conversation_summary (o : String → Outcome) (s : LState) (c : Conv) :
    LabelResult × LState × List String :=
  let t := fullText c
  if t = "" then (LabelResult.out c.conversation_id unknownLabel, s, [])
  else
    match cacheLookup t s.cache with
    | some l => (LabelResult.out c.conversation_id l, s, [])
    | none =>
      match o t with
      | Outcome.rateLimit => (LabelResult.fatal, s, [t])
      | Outcome.ok l =>
        (LabelResult.out c.conversation_id l,
          ⟨(t, l) :: s.cache, (t, l) :: s.cache⟩, [t])
      | Outcome.err =>
        (LabelResult.out c.conversation_id unknownLabel,
          ⟨(t, unknownLabel) :: s.cache, (t, unknownLabel) :: s.cache⟩, [t])

/-- Embedding of the body of the per-file try block of batch_label
(semantic.py lines 181-201, the list case; a single-dict file is the
singleton list).  Processes the conversations of one file in order, writing
one output record per conversation; the typer.Exit raised on the fatal path
aborts the remainder of this file.  Returns the final state, the collected
collaborator invocations and the output records written.  The use-case
extraction collaborator is orthogonal to every claim and is omitted from
the output records. -/
def processFile (o : String → Outcome) : LState → List Conv →
    LState × List String × List (String × Label)
  | s, [] => (s, [], [])
  | s, c :: cs =>
    match label_conversation_summary o s c with
    | (LabelResult.fatal, s2, inv) => (s2, inv, [])
    | (LabelResult.out cid l, s2, inv) =>
      let r := processFile o s2 cs
      (r.1, inv ++ r.2.1, (cid, l) :: r.2.2)

/-- Embedding of the file loop of batch_label (semantic.py lines 179-203).
The per-file except Exception handler catches every exception raised while
processing a file, including the typer.Exit raised on the quota path
(typer.Exit subclasses click.exceptions.Exit, a RuntimeError), logs it and
continues with the next file.  Hence the loop always proceeds to the
remaining files, whatever happened in the current one. -/
def batch_label (o : String → Outcome) : LState → List (List Conv) →
    LState × List String × List (String × Label)
  | s, [] => (s, [], [])
  | s, f :: fs =>
    let r := processFile o s f
    let r2 := batch_label o r.1 fs
    (r2.1, r.2.1 ++ r2.2.1, r.2.2 ++ r2.2.2)

/- ----------------------------------------------------------------- -/
/- Model of src/preprocess.py                                        -/
/- ----------------------------------------------------------------- -/

/-- Observable events of the preprocess loop: attempting one input item
(success or logged per-item failure, both covered by the per-file
try/except) and committing a checkpoint value. -/
inductive Event
  | attempt (i : Nat)
  | commit (c : Nat)
deriving DecidableEq

/-- Embedding of load_checkpoint (preprocess.py lines 36-42): read the file
content when present, parse it, and fall back to 0 when the file is absent
or its content does not parse. -/
def load_checkpoint (content : Option String) : Nat :=
  match content with
  | none => 0
  | some s => (parseNat? (pyStrip s)).getD 0

/-- One step of the preprocess batch loop (preprocess.py lines 102-127),
fuel-structured on the remaining item count: while items remain, attempt
the next min(batch_size, remaining) items in order, then commit the
checkpoint idx + len(batch). -/
def preprocessGo (bs : Nat) : Nat → Nat → Nat → List Event
  | 0, _, _ => []
  | fuel + 1, idx, total =>
    if idx < total then
      (List.range' idx (min bs (total - idx))).map Event.attempt ++
        Event.commit (idx + min bs (total - idx)) ::
          preprocessGo bs fuel (idx + min bs (total - idx)) total
    else []

/-- The event trace of one preprocess run over a sorted list of total items
with the given batch size, starting from checkpoint k.  Fuel total is
enough: every batch advances the index by at least one. -/
def preprocessTrace (bs k total : Nat) : List Event := preprocessGo bs total k total

/-- The indices attempted in a trace, in order. -/
def attemptedOf (tr : List Event) : List Nat :=
  tr.filterMap (fun e => match e with | Event.attempt i => some i | Event.commit _ => none)

/- ----------------------------------------------------------------- -/
/- Durable write model (semantic.py save_cache, preprocess.py         -/
/- save_checkpoint)                                                   -/
/- ----------------------------------------------------------------- -/

/-- A durable file-system operation: a direct (truncating) write of content
to a path, or an atomic rename of one path onto another. -/
inductive FsOp
  | write (path content : String)
  | rename (src dst : String)
deriving DecidableEq

/-- The path of the durable label cache (semantic.py line 27). -/
def cachePath : String := "./label_cache.json"

/-- JSON-like rendering of one label for the cache file model (numeric
rendering abstracted by ratToStr). -/
def serializeLabel (l : Label) : String :=
  "\x7b\"theme\": \"" ++ l.theme ++ "\", \"category\": \"" ++ l.category ++
    "\", \"confidence\": " ++ ratToStr l.confidence ++ "\x7d"

/-- JSON-like rendering of the whole cache for the cache file model. -/
def serializeCache (cache : List (String × Label)) : String :=
  "\x7b" ++
    String.intercalate (", ")
      (cache.map (fun kv => "\"" ++ kv.1 ++ "\": " ++ serializeLabel kv.2)) ++
    "\x7d"

/-- Embedding of save_cache (semantic.py lines 40-42) as the file-system
operations it performs: a single direct write of the full serialized cache
to the cache path.  The source opens CACHE_PATH itself with mode w; there
is no temporary file and no rename. -/
def save_cache (cache : List (String × Label)) : List FsOp :=
  [FsOp.write cachePath (serializeCache cache)]

/-- Embedding of save_checkpoint (preprocess.py lines 44-45) as the
file-system operations it performs: Path.write_text opens the target
itself and writes; no temporary file, no rename. -/
def save_checkpoint (path : String) (idx : Nat) : List FsOp :=
  [FsOp.write path (natToStr idx)]

/-- The predicate the spec asserts of every durable write: the operation
sequence writes the new content to a temporary location and then replaces
the target by renaming that location onto it. -/
def tempThenReplace (ops : List FsOp) (target : String) : Prop :=
  ∃ tmp content, tmp ≠ target ∧ ops = [FsOp.write tmp content, FsOp.rename tmp target]

/-- Content of a file whose direct truncating rewrite with content c was
interrupted after j characters were written. -/
def midWrite (c : String) (j : Nat) : String := ⟨c.data.take j⟩

/- ----------------------------------------------------------------- -/
/- Model of src/build_ref.py (regroup_ref_llm aggregation)            -/
/- ----------------------------------------------------------------- -/

/-- One use case attached to a label record; only the besoin field is read
by regroup_ref_llm (a record without it contributes no example). -/
structure UseCase where
  besoin : Option String
deriving DecidableEq

/-- One line of the labels file as parsed by regroup_ref_llm.  The fields
the code reads are conv.get("theme"), conv.get("categorie") and
conv.get("use_cases"); the field the labeling step actually writes is
category, so it is carried too in order to compare the two. -/
structure LabelRecord where
  theme : Option String
  categorie : Option String
  category : Option String
  use_cases : List UseCase
deriving DecidableEq

/-- The theme key used by regroup_ref_llm: conv.get("theme", "inconnu"). -/
def recTheme (r : LabelRecord) : String := r.theme.getD ("inconnu")

/-- The category key used by regroup_ref_llm:
conv.get("categorie", "inconnu") - note the French spelling, read from
build_ref.py line 41. -/
def recCategorie (r : LabelRecord) : String := r.categorie.getD ("inconnu")

/-- The frequency regroup_ref_llm accumulates in counts for a pair p
(build_ref.py line 43): the number of records whose (theme, categorie)
keys, with their defaults, equal p. -/
def regroupCounts (rs : List LabelRecord) (p : String × String) : Nat :=
  (rs.filter (fun r => decide ((recTheme r, recCategorie r) = p))).length

/-- The count the claim describes: records whose theme and category fields,
as written by the labeling step (key category), equal the pair.  Stated
from the claim wording in order to compare it with regroupCounts. -/
def claimedCounts (rs : List LabelRecord) (p : String × String) : Nat :=
  (rs.filter (fun r => decide ((recTheme r, r.category.getD ("inconnu")) = p))).length

/-- The besoin values of a use-case list, in order (the candidate examples
of one record). -/
def besoins (ucs : List UseCase) : List String := ucs.filterMap (fun uc => uc.besoin)

/-- Embedding of the inner example loop of regroup_ref_llm (build_ref.py
lines 44-46): for each use case carrying a besoin, append it to the
accumulated example list only while that list has fewer than 2 entries. -/
def addExamples : List String → List UseCase → List String
  | exs, [] => exs
  | exs, uc :: ucs =>
    match uc.besoin with
    | some b => addExamples (if exs.length < 2 then exs ++ [b] else exs) ucs
    | none => addExamples exs ucs

/-- The examples accumulator, modelling the nested defaultdict
examples[theme][categorie] as a function from pairs to example lists. -/
def ExMap : Type := String × String → List String

/-- Processing one record updates only the example list of its own
(theme, categorie) pair. -/
def recordExamples (m : ExMap) (r : LabelRecord) : ExMap :=
  fun p =>
    if p = (recTheme r, recCategorie r) then addExamples (m p) r.use_cases else m p

/-- The examples accumulated by regroup_ref_llm over a labels file. -/
def buildExamples (rs : List LabelRecord) : ExMap :=
  rs.foldl recordExamples (fun _ => [])

/-- All candidate examples seen for a pair over a labels file, in file
order: the besoin values of the records keyed to that pair. -/
def seenExamples (rs : List LabelRecord) (p : String × String) : List String :=
  ((rs.filter (fun r => decide ((recTheme r, recCategorie r) = p))).map
    (fun r => besoins r.use_cases)).flatten

/- ----------------------------------------------------------------- -/
/- Category canonicalizer, modelled from the spec (section 4.3)       -/
/- ----------------------------------------------------------------- -/

/-- Modelled from the spec: the CategoryCanonicalizer state.  No code under
src implements it (build_ref.py delegates regrouping to the external LLM
call); spec section 4.3 describes a per-theme alias table from raw category
to canonical category plus the canonical categories in registration
order. -/
structure CanonState where
  aliases : List ((String × String) × String)
  canons : List (String × String)
deriving DecidableEq

/-- Lookup of a (theme, raw category) key in the alias table. -/
def aliasLookup (k : String × String) : List ((String × String) × String) → Option String
  | [] => none
  | kv :: rest => if kv.1 = k then some kv.2 else aliasLookup k rest

/-- The canonical categories already registered for a theme, in
registration order. -/
def candidatesFor (s : CanonState) (theme : String) : List String :=
  (s.canons.filter (fun q => q.1 = theme)).map (fun q => q.2)

/-- Modelled from the spec: scan the candidates in registration order and
keep the first one reaching the maximum similarity score (later candidates
replace the best only with a strictly higher score). -/
def bestMatch (sim : String → String → Nat) (raw : String) :
    List String → Option (String × Nat)
  | [] => none
  | c :: cs =>
    match bestMatch sim raw cs with
    | none => some (c, sim raw c)
    | some (b, sb) => if sb < sim raw c then some (c, sim raw c) else some (b, sb)

/-- Modelled from the spec: missing or empty theme and category values are
normalized to the literal unknown sentinel before resolution (spec section
4.3, edge cases). -/
def normUnknown (s : String) : String := if s = "" then ("unknown") else s

/-- Modelled from the spec: CategoryCanonicalizer.resolve (spec section
4.3).  A recorded alias is returned directly.  Otherwise the case-folded
raw category is compared with every canonical category registered for the
theme; the first candidate reaching the strictly highest score is adopted
when that score reaches the threshold, else the raw category becomes a new
canonical category.  In both branches the resolution is recorded in the
alias table, which is what makes step 1 guarantee stability. -/
def resolve (sim : String → String → Nat) (threshold : Nat) (s : CanonState)
    (theme raw : String) : String × CanonState :=
  let t := normUnknown theme
  let r := normUnknown raw
  match aliasLookup (t, r) s.aliases with
  | some c => (c, s)
  | none =>
    match bestMatch sim (pyLower r) (candidatesFor s t) with
    | some (c, sc) =>
      if threshold ≤ sc then (c, ⟨((t, r), c) :: s.aliases, s.canons⟩)
      else (r, ⟨((t, r), r) :: s.aliases, s.canons ++ [(t, r)]⟩)
    | none => (r, ⟨((t, r), r) :: s.aliases, s.canons ++ [(t, r)]⟩)

/-- A sequence of resolve calls, threading the canonicalizer state. -/
def resolveMany (sim : String → String → Nat) (threshold : Nat) :
    CanonState → List (String × String) → CanonState
  | s, [] => s
  | s, c :: cs => resolveMany sim threshold (resolve sim threshold s c.1 c.2).2 cs

/- ----------------------------------------------------------------- -/
/- Taxonomy aggregator rendering, modelled from the spec (section 4.4) -/
/- ----------------------------------------------------------------- -/

/-- Modelled from the spec: the per-category statistics of the
TaxonomyAggregator (spec section 3, CategoryStats). -/
structure CatStat where
  category : String
  frequency : Nat
  examples : List String
deriving DecidableEq

/-- Modelled from the spec: one theme with its category statistics, in
first-seen order as accumulated by record. -/
structure ThemeGroup where
  theme : String
  cats : List CatStat
deriving DecidableEq

/-- Total frequency of a theme: the sum over its categories. -/
def totalFreq (g : ThemeGroup) : Nat := (g.cats.map (fun c => c.frequency)).sum

/-- Render order on first-seen-indexed themes: strictly larger total
frequency first; on equal totals the smaller first-seen index first. -/
def themeOrdR (a b : Nat × ThemeGroup) : Prop :=
  totalFreq b.2 < totalFreq a.2 ∨ (totalFreq b.2 = totalFreq a.2 ∧ a.1 ≤ b.1)

/-- Render order on first-seen-indexed categories: strictly larger
frequency first; on equal frequencies the smaller first-seen index
first. -/
def catOrdR (a b : Nat × CatStat) : Prop :=
  b.2.frequency < a.2.frequency ∨ (b.2.frequency = a.2.frequency ∧ a.1 ≤ b.1)

instance : DecidableRel themeOrdR := fun a b =>
  inferInstanceAs (Decidable (totalFreq b.2 < totalFreq a.2 ∨
    (totalFreq b.2 = totalFreq a.2 ∧ a.1 ≤ b.1)))

instance : DecidableRel catOrdR := fun a b =>
  inferInstanceAs (Decidable (b.2.frequency < a.2.frequency ∨
    (b.2.frequency = a.2.frequency ∧ a.1 ≤ b.1)))

instance : IsTotal (Nat × ThemeGroup) themeOrdR :=
  ⟨fun a b => by unfold themeOrdR; omega⟩

instance : IsTrans (Nat × ThemeGroup) themeOrdR :=
  ⟨fun a b c => by unfold themeOrdR; omega⟩

instance : IsTotal (Nat × CatStat) catOrdR :=
  ⟨fun a b => by unfold catOrdR; omega⟩

instance : IsTrans (Nat × CatStat) catOrdR :=
  ⟨fun a b c => by unfold catOrdR; omega⟩

/-- Modelled from the spec: the themes in render order, each still carrying
its first-seen index (spec section 4.4).  The sort key is total frequency
descending with first-seen order breaking ties; since first-seen indices
are distinct this key is a total order and the result order is unique. -/
def renderEnum (gs : List ThemeGroup) : List (Nat × ThemeGroup) :=
  List.insertionSort themeOrdR gs.enum

/-- Modelled from the spec: the categories of one theme in render order,
each still carrying its first-seen index. -/
def sortedCatsEnum (g : ThemeGroup) : List (Nat × CatStat) :=
  List.insertionSort catOrdR g.cats.enum

/-- Modelled from the spec: TaxonomyAggregator.render (spec section 4.4):
themes ordered by descending total frequency with first-seen tiebreak, and
inside each theme the categories ordered by descending frequency with
first-seen tiebreak. -/
def render (gs : List ThemeGroup) : List ThemeGroup :=
  (renderEnum gs).map (fun p => ⟨p.2.theme, (sortedCatsEnum p.2).map (fun q => q.2)⟩)

/- ----------------------------------------------------------------- -/
/- Concrete inputs used by closed theorems and witnesses              -/
/- ----------------------------------------------------------------- -/

/-- Collaborator that raises the quota signal for the text aa and succeeds
on every other text. -/
def quotaOnAA : String → Outcome :=
  fun t => if t = "aa" then Outcome.rateLimit else Outcome.ok ⟨("Paiement"), ("Carte refusée"), 1⟩

/-- Collaborator that always raises the quota signal. -/
def rateLimitAlways : String → Outcome := fun _ => Outcome.rateLimit

/-- Collaborator that always fails with a recoverable error. -/
def errAlways : String → Outcome := fun _ => Outcome.err

/-- A labels record exactly as the labeling step writes it: theme and
category keys set, no categorie key. -/
def recordPaiement : LabelRecord := ⟨some ("Paiement"), none, some ("Carte refusée"), []⟩

/-- A concrete similarity score for witnesses: 100 on a case-insensitive
match, 0 otherwise (resolve hands it the already case-folded raw). -/
def simExact : String → String → Nat := fun a b => if a = pyLower b then 100 else 0

/-- A canonicalizer state in which carte refusee already has an alias. -/
def canonStateW : CanonState :=
  ⟨[((("Paiement"), ("carte refusee")), ("Carte refusée"))],
    [(("Paiement"), ("Carte refusée"))]⟩

/-- A one-message conversation with text hi. -/
def convHi : Conv := ⟨("c1"), [("hi")]⟩

/-- A conversation whose messages all have an empty text field. -/
def convEmpty : Conv := ⟨("c0"), [(""), ("")]⟩

end Reecall

namespace Reecall

/- ----------------------------------------------------------------- -/
/- Helper lemmas                                                      -/
/- ----------------------------------------------------------------- -/

/-- Inserting a binding for a different key does not change a lookup. -/
theorem cacheLookup_insert_ne (t k : String) (v : Label) (cache : List (String × Label))
    (hk : k ≠ t) : cacheLookup t ((k, v) :: cache) = cacheLookup t cache := by
  simp [cacheLookup, hk]

/-- One label_conversation_summary call never removes or overwrites an
existing cache binding: the source stores only on a cache miss. -/
theorem cacheLookup_label_preserved (o : String → Outcome) (s : LState) (c : Conv)
    (t : String) (v : Label) (h : cacheLookup t s.cache = some v) :
    cacheLookup t (label_conversation_summary o s c).2.1.cache = some v := by
  rw [label_conversation_summary]
  by_cases h0 : fullText c = ""
  · simp [h0, h]
  · simp only [h0, if_false]
    cases hcl : cacheLookup (fullText c) s.cache with
    | some l => simp [h]
    | none =>
      have hk : fullText c ≠ t := by
        intro he
        rw [he, h] at hcl
        cases hcl
      cases ho : o (fullText c) with
      | rateLimit => simp [h]
      | ok l => simpa [cacheLookup_insert_ne t (fullText c) l s.cache hk] using h
      | err => simpa [cacheLookup_insert_ne t (fullText c) unknownLabel s.cache hk] using h

/-- processFile never removes or overwrites an existing cache binding. -/
theorem cacheLookup_processFile_preserved (o : String → Outcome) (t : String) (v : Label) :
    ∀ (cs : List Conv) (s : LState), cacheLookup t s.cache = some v →
      cacheLookup t (processFile o s cs).1.cache = some v := by
  intro cs
  induction cs with
  | nil => intro s h; exact h
  | cons c cs ih =>
    intro s h
    have hp := cacheLookup_label_preserved o s c t v h
    rcases hE : label_conversation_summary o s c with ⟨res, s2, inv⟩
    rw [hE] at hp
    cases res with
    | fatal => simpa [processFile, hE] using hp
    | out cid l =>
      simp only [processFile, hE]
      exact ih s2 hp

/-- batch_label never removes or overwrites an existing cache binding. -/
theorem cacheLookup_batch_preserved (o : String → Outcome) (t : String) (v : Label) :
    ∀ (fs : List (List Conv)) (s : LState), cacheLookup t s.cache = some v →
      cacheLookup t (batch_label o s fs).1.cache = some v := by
  intro fs
  induction fs with
  | nil => intro s h; exact h
  | cons f fs ih =>
    intro s h
    simp only [batch_label]
    exact ih _ (cacheLookup_processFile_preserved o t v f s h)

/-- Prepending an alias binding for a different key does not change an
alias lookup. -/
theorem aliasLookup_insert_ne (k k2 : String × String) (v : String)
    (al : List ((String × String) × String)) (hk : k2 ≠ k) :
    aliasLookup k ((k2, v) :: al) = aliasLookup k al := by
  simp [aliasLookup, hk]

/-- One resolve call never removes or overwrites an existing alias: the
alias table only grows, and only with keys not yet present. -/
theorem aliasLookup_resolve_preserved (sim : String → String → Nat) (threshold : Nat)
    (s : CanonState) (t2 r2 : String) (k : String × String) (c : String)
    (h : aliasLookup k s.aliases = some c) :
    aliasLookup k (resolve sim threshold s t2 r2).2.aliases = some c := by
  rw [resolve]
  cases hcl : aliasLookup (normUnknown t2, normUnknown r2) s.aliases with
  | some c2 => simpa using h
  | none =>
    have hk : (normUnknown t2, normUnknown r2) ≠ k := by
      intro he
      rw [he, h] at hcl
      cases hcl
    cases hbm : bestMatch sim (pyLower (normUnknown r2)) (candidatesFor s (normUnknown t2)) with
    | none => simpa [aliasLookup_insert_ne k _ _ _ hk] using h
    | some p =>
      by_cases hth : threshold ≤ p.2
      · simpa [hth, aliasLookup_insert_ne k _ _ _ hk] using h
      · simpa [hth, aliasLookup_insert_ne k _ _ _ hk] using h

/-- A sequence of resolve calls never removes or overwrites an existing
alias. -/
theorem aliasLookup_resolveMany_preserved (sim : String → String → Nat) (threshold : Nat)
    (k : String × String) (c : String) :
    ∀ (calls : List (String × String)) (s : CanonState),
      aliasLookup k s.aliases = some c →
      aliasLookup k (resolveMany sim threshold s calls).aliases = some c := by
  intro calls
  induction calls with
  | nil => intro s h; exact h
  | cons call calls ih =>
    intro s h
    simp only [resolveMany]
    exact ih _ (aliasLookup_resolve_preserved sim threshold s call.1 call.2 k c h)

/- ----------------------------------------------------------------- -/
/- Claim theorems                                                     -/
/- ----------------------------------------------------------------- -/

/-- Claim C1 (code bug demonstration): the quota signal is raised by
label_conversation_summary (first conjunct) but does not terminate the
batch run: with two input files where the first conversation rate-limits,
the collaborator is still invoked for the second file (second conjunct)
and its label record is still written to the output (third conjunct),
because the per-file except Exception of batch_label catches the
typer.Exit raised on the quota path. -/
theorem claim_C1_quota_not_fatal :
    (label_conversation_summary quotaOnAA ⟨[], []⟩ ⟨("c1"), [("aa")]⟩).1 = LabelResult.fatal
  ∧ (batch_label quotaOnAA ⟨[], []⟩ [[⟨("c1"), [("aa")]⟩], [⟨("c2"), [("bb")]⟩]]).2.1
      = [("aa"), ("bb")]
  ∧ (batch_label quotaOnAA ⟨[], []⟩ [[⟨("c1"), [("aa")]⟩], [⟨("c2"), [("bb")]⟩]]).2.2
      = [(("c2"), ⟨("Paiement"), ("Carte refusée"), 1⟩)] :=
  ⟨by decide, by decide, by decide⟩

/-- Claim C2 (code bug demonstration): within one process lifetime the
collaborator can be invoked twice for one distinct text: the rate-limited
call stores nothing in the cache and the run-abort signal is swallowed per
file, so a second file holding the same text sends it again. -/
theorem claim_C2_invoked_twice :
    (batch_label rateLimitAlways ⟨[], []⟩ [[⟨("c1"), [("aa")]⟩], [⟨("c2"), [("aa")]⟩]]).2.1
      = [("aa"), ("aa")]
  ∧ List.count ("aa")
      (batch_label rateLimitAlways ⟨[], []⟩ [[⟨("c1"), [("aa")]⟩], [⟨("c2"), [("aa")]⟩]]).2.1
      = 2 :=
  ⟨by decide, by decide⟩

/-- Claim C3 (code bug demonstration): a labels record written by the
labeling step carries its category under the key category, but
regroup_ref_llm reads the key categorie; so the record counts toward
(Paiement, inconnu) and not toward its own (theme, category) pair as the
claim states. -/
theorem claim_C3_category_key_mismatch :
    recordPaiement.category = some ("Carte refusée")
  ∧ recTheme recordPaiement = "Paiement"
  ∧ regroupCounts [recordPaiement] (("Paiement"), ("Carte refusée")) = 0
  ∧ claimedCounts [recordPaiement] (("Paiement"), ("Carte refusée")) = 1
  ∧ regroupCounts [recordPaiement] (("Paiement"), ("inconnu")) = 1 :=
  ⟨by decide, by decide, by decide, by decide, by decide⟩

/-- Claim C5 counterexample: neither save_cache nor save_checkpoint writes
to a temporary location and replaces the target; both are single direct
writes to the target itself, and a crash after one character of the
cache rewrite leaves content that is neither the pre-state (the previous
flush of an empty cache) nor the post-state. -/
theorem claim_C5_counterexample :
    ¬ tempThenReplace (save_cache [(("t"), unknownLabel)]) cachePath
  ∧ ¬ tempThenReplace (save_checkpoint (".checkpoint") 6) (".checkpoint")
  ∧ midWrite (serializeCache [(("t"), unknownLabel)]) 1 ≠ serializeCache []
  ∧ midWrite (serializeCache [(("t"), unknownLabel)]) 1
      ≠ serializeCache [(("t"), unknownLabel)] := by
  refine ⟨?_, ?_, by decide, by decide⟩
  · rintro ⟨tmp, content, -, heq⟩
    simp [save_cache] at heq
  · rintro ⟨tmp, content, -, heq⟩
    simp [save_checkpoint] at heq

/-- Claim C5 as amended: every durable cache or checkpoint store is a
single direct in-place rewrite of the target file with the full new
content (for the cache, the full serialized cache, so store does flush the
whole cache before returning); there is no temporary location and no
replace step. -/
theorem claim_C5_direct_write (cache : List (String × Label)) (path : String) (idx : Nat) :
    save_cache cache = [FsOp.write cachePath (serializeCache cache)]
  ∧ save_checkpoint path idx = [FsOp.write path (natToStr idx)] :=
  ⟨rfl, rfl⟩

/-- Claim C6: once resolve has recorded a canonical category for a
(theme, raw category) key, any sequence of later resolve calls - in
particular ones registering new, better-matching canonical categories -
leaves that alias unchanged, and a later resolve of the same key returns
the recorded canonical category. -/
theorem claim_C6_alias_stability (sim : String → String → Nat) (threshold : Nat)
    (s : CanonState) (theme raw c : String)
    (h : aliasLookup (normUnknown theme, normUnknown raw) s.aliases = some c)
    (calls : List (String × String)) :
    aliasLookup (normUnknown theme, normUnknown raw)
        (resolveMany sim threshold s calls).aliases = some c
    ∧ (resolve sim threshold (resolveMany sim threshold s calls) theme raw).1 = c := by
  have hp := aliasLookup_resolveMany_preserved sim threshold
    (normUnknown theme, normUnknown raw) c calls s h
  refine ⟨hp, ?_⟩
  rw [resolve]
  simp [hp]

/-- Claim C6 witness: with the alias carte refusee to Carte refusée
recorded under theme Paiement, resolving the new category Carte Refusee!
(which matches Carte refusée at score 100) does not change the alias, and
re-resolving carte refusee still returns Carte refusée. -/
theorem claim_C6_witness :
    aliasLookup (normUnknown ("Paiement"), normUnknown ("carte refusee")) canonStateW.aliases
      = some ("Carte refusée")
  ∧ (aliasLookup (normUnknown ("Paiement"), normUnknown ("carte refusee"))
        (resolveMany simExact 85 canonStateW [(("Paiement"), ("Carte Refusee!"))]).aliases
        = some ("Carte refusée")
     ∧ (resolve simExact 85
          (resolveMany simExact 85 canonStateW [(("Paiement"), ("Carte Refusee!"))])
          ("Paiement") ("carte refusee")).1 = "Carte refusée") :=
  ⟨by decide,
    claim_C6_alias_stability simExact 85 canonStateW ("Paiement") ("carte refusee")
      ("Carte refusée") (by decide) [(("Paiement"), ("Carte Refusee!"))]⟩

/-- Claim C7: in the rendered taxonomy, themes are sorted by descending
total frequency with ties broken by first-seen order (the enum index), the
sorted themes are a permutation of the accumulated ones, and inside every
theme the categories are sorted by descending frequency with ties broken
by first-seen order; render is exactly the projection of these sorted,
indexed lists. -/
theorem claim_C7_render_ordering (gs : List ThemeGroup) :
    List.Sorted themeOrdR (renderEnum gs)
  ∧ List.Perm (renderEnum gs) gs.enum
  ∧ (∀ g : ThemeGroup, List.Sorted catOrdR (sortedCatsEnum g)
      ∧ List.Perm (sortedCatsEnum g) g.cats.enum)
  ∧ render gs
      = (renderEnum gs).map (fun p => ⟨p.2.theme, (sortedCatsEnum p.2).map (fun q => q.2)⟩) :=
  ⟨List.sorted_insertionSort themeOrdR _, List.perm_insertionSort themeOrdR _,
    fun g => ⟨List.sorted_insertionSort catOrdR g.cats.enum,
      List.perm_insertionSort catOrdR g.cats.enum⟩, rfl⟩

/-- Claim C9: when the collaborator fails with a recoverable (non
rate-limit) error on a non-empty uncached text, the unknown label is
returned, stored in the cache under that text and flushed to the durable
cache file; any state whose cache holds that binding (this process later
on, or a later process that loaded the flushed file) answers the same text
with the unknown label and zero collaborator invocations; and no later
batch work ever removes the binding. -/
theorem claim_C9_error_label_cached (o : String → Outcome) (s : LState) (c : Conv)
    (t : String) (ht : fullText c = t) (hne : t ≠ "")
    (hmiss : cacheLookup t s.cache = none) (herr : o t = Outcome.err) :
    label_conversation_summary o s c =
      (LabelResult.out c.conversation_id unknownLabel,
        ⟨(t, unknownLabel) :: s.cache, (t, unknownLabel) :: s.cache⟩, [t])
  ∧ cacheLookup t ((t, unknownLabel) :: s.cache) = some unknownLabel
  ∧ (∀ (s2 : LState) (c2 : Conv), cacheLookup t s2.cache = some unknownLabel →
      fullText c2 = t →
      label_conversation_summary o s2 c2 =
        (LabelResult.out c2.conversation_id unknownLabel, s2, []))
  ∧ (∀ fs : List (List Conv), cacheLookup t
      (batch_label o ⟨(t, unknownLabel) :: s.cache, (t, unknownLabel) :: s.cache⟩ fs).1.cache
        = some unknownLabel) := by
  have hbind : cacheLookup t ((t, unknownLabel) :: s.cache) = some unknownLabel := by
    simp [cacheLookup]
  refine ⟨?_, hbind, ?_, ?_⟩
  · rw [label_conversation_summary]
    simp [ht, hne, hmiss, herr]
  · intro s2 c2 h2 ht2
    rw [label_conversation_summary]
    simp [ht2, hne, h2]
  · intro fs
    exact cacheLookup_batch_preserved o t unknownLabel fs _ hbind

/-- Claim C9 witness at a concrete input: an always-failing collaborator on
the conversation c1 with text hi, starting from an empty cache. -/
theorem claim_C9_witness :
    (fullText convHi = "hi" ∧ ("hi" : String) ≠ "" ∧ cacheLookup ("hi") ([]) = none
      ∧ errAlways ("hi") = Outcome.err)
  ∧ label_conversation_summary errAlways ⟨[], []⟩ convHi =
      (LabelResult.out convHi.conversation_id unknownLabel,
        ⟨[(("hi"), unknownLabel)], [(("hi"), unknownLabel)]⟩, [("hi")]) :=
  ⟨⟨by decide, by decide, rfl, rfl⟩,
    (claim_C9_error_label_cached errAlways ⟨[], []⟩ convHi ("hi")
      (by decide) (by decide) rfl rfl).1⟩

/-- Claim C10: a conversation none of whose messages has a non-empty text
field is answered with the unknown label carrying its conversation id,
with no collaborator invocation and no change to the in-memory cache or
the durable cache file. -/
theorem claim_C10_empty_conversation (o : String → Outcome) (s : LState) (c : Conv)
    (h : ∀ m ∈ c.messages, m = "") :
    label_conversation_summary o s c =
      (LabelResult.out c.conversation_id unknownLabel, s, []) := by
  have hf : c.messages.filter (fun t => t != "") = [] := by
    rw [List.filter_eq_nil_iff]
    intro a ha
    simp [h a ha]
  have ht : fullText c = "" := by
    rw [fullText, hf]
    rfl
  rw [label_conversation_summary]
  simp [ht]

/-- Claim C10 witness at a concrete input: a conversation with two empty
message texts, an always-failing collaborator and an empty cache. -/
theorem claim_C10_witness :
    (∀ m ∈ convEmpty.messages, m = "")
  ∧ label_conversation_summary errAlways ⟨[], []⟩ convEmpty =
      (LabelResult.out convEmpty.conversation_id unknownLabel, ⟨[], []⟩, []) :=
  ⟨by decide, claim_C10_empty_conversation errAlways ⟨[], []⟩ convEmpty (by decide)⟩

/- ----------------------------------------------------------------- -/
/- Lemmas for the checkpoint runner (C4)                              -/
/- ----------------------------------------------------------------- -/

/-- A block of attempt events contributes exactly its indices. -/
theorem attemptedOf_attempts (l : List Nat) : attemptedOf (l.map Event.attempt) = l := by
  induction l with
  | nil => rfl
  | cons a l ih => simp only [List.map_cons, attemptedOf, List.filterMap_cons] at *; simp [ih]

/-- attemptedOf distributes over append. -/
theorem attemptedOf_append (l₁ l₂ : List Event) :
    attemptedOf (l₁ ++ l₂) = attemptedOf l₁ ++ attemptedOf l₂ := by
  simp [attemptedOf]

/-- A commit event contributes no attempted index. -/
theorem attemptedOf_commit_cons (c : Nat) (l : List Event) :
    attemptedOf (Event.commit c :: l) = attemptedOf l := by
  simp [attemptedOf, List.filterMap_cons]

/-- With enough fuel, the batch loop starting at idx attempts exactly the
indices from idx up to the total, in order. -/
theorem attemptedOf_preprocessGo (bs : Nat) (hbs : 0 < bs) :
    ∀ (fuel idx total : Nat), total - idx ≤ fuel →
      attemptedOf (preprocessGo bs fuel idx total) = List.range' idx (total - idx) := by
  intro fuel
  induction fuel with
  | zero =>
    intro idx total h
    have h0 : total - idx = 0 := Nat.le_zero.mp h
    simp [preprocessGo, attemptedOf, h0]
  | succ fuel ih =>
    intro idx total h
    by_cases hlt : idx < total
    · simp only [preprocessGo, hlt, if_true]
      have hb1 : 1 ≤ min bs (total - idx) := by omega
      have hble : min bs (total - idx) ≤ total - idx := Nat.min_le_right _ _
      have hrec : total - (idx + min bs (total - idx)) ≤ fuel := by omega
      rw [attemptedOf_append, attemptedOf_attempts, attemptedOf_commit_cons,
        ih (idx + min bs (total - idx)) total hrec]
      have happ := List.range'_append idx (min bs (total - idx))
        (total - (idx + min bs (total - idx))) 1
      have h1 : idx + 1 * min bs (total - idx) = idx + min bs (total - idx) := by omega
      have h2 : total - (idx + min bs (total - idx)) + min bs (total - idx) = total - idx := by
        omega
      rw [h1, h2] at happ
      exact happ
    · have h0 : total - idx = 0 := by omega
      simp [preprocessGo, hlt, attemptedOf, h0]

/-- Splitting an append at a distinguished element that cannot occur in the
left part. -/
theorem append_cons_split {α : Type} :
    ∀ (l₁ pre suf l₂ : List α) (e : α), l₁ ++ l₂ = pre ++ e :: suf → e ∉ l₁ →
      ∃ pre2, pre = l₁ ++ pre2 ∧ l₂ = pre2 ++ e :: suf := by
  intro l₁
  induction l₁ with
  | nil =>
    intro pre suf l₂ e h he
    exact ⟨pre, rfl, h⟩
  | cons a l₁ ih =>
    intro pre suf l₂ e h he
    cases pre with
    | nil =>
      simp only [List.cons_append, List.nil_append] at h
      have ha : a = e := (List.cons.injEq _ _ _ _).mp h |>.1
      exact absurd (ha ▸ List.mem_cons_self a l₁) he
    | cons p pre1 =>
      simp only [List.cons_append] at h
      have ha : a = p := (List.cons.injEq _ _ _ _).mp h |>.1
      have htl : l₁ ++ l₂ = pre1 ++ e :: suf := (List.cons.injEq _ _ _ _).mp h |>.2
      have he1 : e ∉ l₁ := fun hm => he (List.mem_cons_of_mem a hm)
      obtain ⟨pre2, h1, h2⟩ := ih pre1 suf l₂ e htl he1
      exact ⟨pre2, by rw [h1, ha, List.cons_append], h2⟩

/-- Every checkpoint commit in the batch trace is preceded by attempts of
all indices from the start index up to the committed value: a checkpoint is
persisted only after every item of its batch (and of every earlier batch)
has been attempted. -/
theorem commits_after_batch (bs : Nat) :
    ∀ (fuel idx total : Nat) (pre suf : List Event) (c : Nat),
      preprocessGo bs fuel idx total = pre ++ Event.commit c :: suf →
      ∀ i, idx ≤ i → i < c → Event.attempt i ∈ pre := by
  intro fuel
  induction fuel with
  | zero =>
    intro idx total pre suf c h
    rw [preprocessGo] at h
    cases pre <;> simp at h
  | succ fuel ih =>
    intro idx total pre suf c h i hi hic
    by_cases hlt : idx < total
    · simp only [preprocessGo, hlt, if_true] at h
      have hnm : Event.commit c ∉ (List.range' idx (min bs (total - idx))).map Event.attempt := by
        simp
      obtain ⟨pre2, hpre, h2⟩ := append_cons_split _ pre suf _ (Event.commit c) h hnm
      cases pre2 with
      | nil =>
        simp only [List.nil_append] at h2
        have hc : idx + min bs (total - idx) = c :=
          Event.commit.inj ((List.cons.injEq _ _ _ _).mp h2).1
        rw [hpre, List.append_nil]
        exact List.mem_map_of_mem Event.attempt (List.mem_range'_1.mpr ⟨hi, by omega⟩)
      | cons q pre3 =>
        simp only [List.cons_append] at h2
        have hrest : preprocessGo bs fuel (idx + min bs (total - idx)) total
            = pre3 ++ Event.commit c :: suf := ((List.cons.injEq _ _ _ _).mp h2).2
        rw [hpre]
        by_cases hib : i < idx + min bs (total - idx)
        · exact List.mem_append_left _
            (List.mem_map_of_mem Event.attempt (List.mem_range'_1.mpr ⟨hi, hib⟩))
        · have hmem := ih (idx + min bs (total - idx)) total pre3 suf c hrest i (by omega) hic
          exact List.mem_append_right _ (List.mem_cons_of_mem q hmem)
    · simp only [preprocessGo, hlt, if_false] at h
      cases pre <;> simp at h

/-- Claim C4: a batch run starting from the checkpoint read by
load_checkpoint (0 when the file is absent, or present but unparsable)
attempts exactly the indices from that value up to the item count, in
order - never an earlier index, never skipping a later one - and every
committed checkpoint value c is persisted only after all indices below c
(in particular the whole current batch) have been attempted. -/
theorem claim_C4_checkpoint_resume (content : Option String) (total bs : Nat)
    (hbs : 0 < bs) :
    attemptedOf (preprocessTrace bs (load_checkpoint content) total)
      = List.range' (load_checkpoint content) (total - load_checkpoint content)
  ∧ (∀ (pre suf : List Event) (c : Nat),
      preprocessTrace bs (load_checkpoint content) total = pre ++ Event.commit c :: suf →
      ∀ i, load_checkpoint content ≤ i → i < c → Event.attempt i ∈ pre)
  ∧ load_checkpoint none = 0 := by
  refine ⟨?_, ?_, rfl⟩
  · exact attemptedOf_preprocessGo bs hbs total (load_checkpoint content) total (Nat.sub_le _ _)
  · intro pre suf c h
    exact commits_after_batch bs total (load_checkpoint content) total pre suf c h

/-- Claim C4 witness: checkpoint file content 6 with 10 items and batch
size 3 resumes at exactly the items 6,7,8,9. -/
theorem claim_C4_witness :
    (0 : Nat) < 3
  ∧ (attemptedOf (preprocessTrace 3 (load_checkpoint (some ("6"))) 10)
      = List.range' (load_checkpoint (some ("6"))) (10 - load_checkpoint (some ("6")))
    ∧ (∀ (pre suf : List Event) (c : Nat),
        preprocessTrace 3 (load_checkpoint (some ("6"))) 10 = pre ++ Event.commit c :: suf →
        ∀ i, load_checkpoint (some ("6")) ≤ i → i < c → Event.attempt i ∈ pre)
    ∧ load_checkpoint none = 0) :=
  ⟨by decide, claim_C4_checkpoint_resume (some ("6")) 10 3 (by decide)⟩

/- ----------------------------------------------------------------- -/
/- Lemmas for the example cap (C8)                                    -/
/- ----------------------------------------------------------------- -/

/-- Taking two of an already-capped prefix is the same as capping the whole
concatenation. -/
theorem take_two_append {α : Type} (L M : List α) :
    ((L.take 2) ++ M).take 2 = (L ++ M).take 2 := by
  rw [List.take_append_eq_append_take, List.take_append_eq_append_take, List.take_take]
  have h1 : min 2 2 = 2 := rfl
  have h2 : 2 - (L.take 2).length = 2 - L.length := by
    simp only [List.length_take]
    omega
  rw [h1, h2]

/-- The inner example loop caps an accumulated list of at most two entries
at the first two of the accumulated entries followed by the besoin values
of the use cases, in order. -/
theorem addExamples_eq :
    ∀ (ucs : List UseCase) (exs : List String), exs.length ≤ 2 →
      addExamples exs ucs = (exs ++ besoins ucs).take 2 := by
  intro ucs
  induction ucs with
  | nil =>
    intro exs h
    simp [addExamples, besoins, List.take_of_length_le h]
  | cons uc ucs ih =>
    intro exs h
    cases hb : uc.besoin with
    | none =>
      rw [addExamples]
      simp only [hb]
      rw [ih exs h]
      simp [besoins, List.filterMap_cons, hb]
    | some b =>
      rw [addExamples]
      simp only [hb]
      by_cases hl : exs.length < 2
      · rw [if_pos hl]
        have hlen : (exs ++ [b]).length ≤ 2 := by
          simp only [List.length_append, List.length_cons, List.length_nil]
          omega
        rw [ih _ hlen]
        simp [besoins, List.filterMap_cons, hb, List.append_assoc]
      · rw [if_neg hl, ih exs h]
        have h2 : exs.length = 2 := by omega
        rw [List.take_append_eq_append_take, List.take_append_eq_append_take]
        simp [besoins, List.filterMap_cons, hb, h2, List.take_of_length_le h2.le]

/-- Peeling one record off the stream of seen examples for a pair. -/
theorem seenExamples_cons (r : LabelRecord) (rs : List LabelRecord) (p : String × String) :
    seenExamples (r :: rs) p
      = (if p = (recTheme r, recCategorie r) then besoins r.use_cases else [])
          ++ seenExamples rs p := by
  by_cases hq : p = (recTheme r, recCategorie r)
  · simp [seenExamples, List.filter_cons, hq.symm]
  · have hq2 : ¬ (recTheme r, recCategorie r) = p := fun he => hq he.symm
    simp [seenExamples, List.filter_cons, hq, hq2]

/-- Folding the example accumulator over the records, from a capped start,
yields the cap of the full seen stream. -/
theorem buildExamples_aux :
    ∀ (rs : List LabelRecord) (S : String × String → List String) (p : String × String),
      List.foldl recordExamples (fun q => (S q).take 2) rs p
        = (S p ++ seenExamples rs p).take 2 := by
  intro rs
  induction rs with
  | nil =>
    intro S p
    simp [seenExamples]
  | cons r rs ih =>
    intro S p
    rw [List.foldl_cons]
    have hstep : recordExamples (fun q => (S q).take 2) r
        = fun q => ((fun q2 => S q2 ++
            (if q2 = (recTheme r, recCategorie r) then besoins r.use_cases else [])) q).take 2 := by
      funext q
      simp only [recordExamples]
      by_cases hq : q = (recTheme r, recCategorie r)
      · rw [if_pos hq, if_pos hq,
          addExamples_eq r.use_cases ((S q).take 2)
            (by simp only [List.length_take]; omega),
          take_two_append]
      · rw [if_neg hq, if_neg hq, List.append_nil]
    rw [hstep, ih, seenExamples_cons, List.append_assoc]

/-- Claim C8: for every (theme, category) pair, the example list
accumulated by regroup_ref_llm over a labels file is exactly the first two
of the besoin values seen for that pair, in first-seen order - so at most
two entries, never evicted and never reordered. -/
theorem claim_C8_example_cap (rs : List LabelRecord) (p : String × String) :
    buildExamples rs p = (seenExamples rs p).take 2 := by
  have h := buildExamples_aux rs (fun _ => []) p
  simpa [buildExamples] using h

end Reecall
